import Mathlib

/-!
Verification development for the `unity_gemini_mcp` repository.

The definitions below are a shallow embedding of the Python sources
`src/mcp_core.py` and `src/gemini_mcp_client.py`.  External effects
(reasoning-engine calls, remote MCP tool calls, scene rendering, operator
input) are modelled as oracle data supplied through environment records;
a Python exception is modelled as `Except.error` carrying the message
string.  Stateful code is modelled by explicit state passing.
-/

namespace UnityGeminiMCP

/-- A Python exception, identified by its message text. -/
abbrev PyErr := String

/-! ## Schema cleaning: `remove_key` (mcp_core.py lines 23-31,
    gemini_mcp_client.py lines 22-30)

A finitely nested structure built from mappings, sequences and scalars,
as traversed by the duck-typed Python function.  Python `dict` keys are
unique, so a well-formed `dict` node has pairwise distinct keys; the
functions below delete every binding of the target key, which agrees
with `del container[key]` on such inputs. -/

inductive JVal where
  | scalar : String → JVal
  | dict : List (String × JVal) → JVal
  | list : List JVal → JVal

/- `remove_key(container, key)`: delete `key` from every mapping at any
depth.  The Python code deletes the binding first (so the deleted value
is not traversed) and then recurses into the remaining values, and
recurses into every member of a sequence. -/
mutual
def removeKey : JVal → String → JVal
  | .scalar s, _ => .scalar s
  | .dict kvs, k => .dict (removeKeyEntries kvs k)
  | .list vs, k => .list (removeKeyMembers vs k)
def removeKeyEntries : List (String × JVal) → String → List (String × JVal)
  | [], _ => []
  | (k', v) :: rest, k =>
      if k' = k then removeKeyEntries rest k
      else (k', removeKey v k) :: removeKeyEntries rest k
def removeKeyMembers : List JVal → String → List JVal
  | [], _ => []
  | v :: vs, k => removeKey v k :: removeKeyMembers vs k
end

/- `hasKey v k` is `true` when some mapping reachable inside the value
(through nested mappings and sequences) contains the key `k`. -/
mutual
def hasKey : JVal → String → Bool
  | .scalar _, _ => false
  | .dict kvs, k => hasKeyEntries kvs k
  | .list vs, k => hasKeyMembers vs k
def hasKeyEntries : List (String × JVal) → String → Bool
  | [], _ => false
  | (k', v) :: rest, k => decide (k' = k) || hasKey v k || hasKeyEntries rest k
def hasKeyMembers : List JVal → String → Bool
  | [], _ => false
  | v :: vs, k => hasKey v k || hasKeyMembers vs k
end

/-! ## Python string primitives

`pyWS` is ASCII whitespace as stripped by `str.strip()`; `pyToUpperChar`
and `pyToLowerChar` are the ASCII case maps of `str.upper()`/`str.lower()`;
`hasSubL` is Python's substring test `pat in s`. -/

def pyWS (c : Char) : Bool :=
  c == ' ' || c == '\t' || c == '\n' || c == '\r' || c == '\x0b' || c == '\x0c'

def pyToUpperChar (c : Char) : Char :=
  if 'a' ≤ c ∧ c ≤ 'z' then Char.ofNat (c.toNat - 32) else c

def pyToLowerChar (c : Char) : Char :=
  if 'A' ≤ c ∧ c ≤ 'Z' then Char.ofNat (c.toNat + 32) else c

def pyUpperL (l : List Char) : List Char := l.map pyToUpperChar

/-- Python `str.strip()`: drop whitespace from both ends. -/
def pyStripL (l : List Char) : List Char :=
  ((l.dropWhile pyWS).reverse.dropWhile pyWS).reverse

def startsWithL : List Char → List Char → Bool
  | [], _ => true
  | _ :: _, [] => false
  | c :: cs, d :: ds => c == d && startsWithL cs ds

/-- Python `pat in s` on character lists: `pat` occurs contiguously in `s`. -/
def hasSubL : List Char → List Char → Bool
  | pat, [] => startsWithL pat []
  | pat, l@(_ :: t) => startsWithL pat l || hasSubL pat t

/-- Python `pat in s` on strings. -/
def pyIn (pat s : String) : Bool := hasSubL pat.toList s.toList

/-- Python `s.lower()` (ASCII). -/
def pyLower (s : String) : String := String.mk (s.toList.map pyToLowerChar)

/- `ReActAgent.check_goal_completion` (mcp_core.py lines 517-561): builds
the goal-check prompt, calls the vision model, strips and uppercases
`response.text`, and tests for the token `GOAL_ACHIEVED`; the enclosing
`try` turns any exception from the call into `False`.  The oracle
argument is the outcome of the engine call (`response.text`, or the
exception it raised). -/
def checkGoalCompletion (oracle : Except PyErr String) : Bool :=
  match oracle with
  | .ok text => hasSubL "GOAL_ACHIEVED".toList (pyUpperL (pyStripL text.toList))
  | .error _ => false

/-! ## Reasoning-engine responses and the action dispatcher

`Response`/`Candidate`/`Part` mirror the shape of the engine's reply as
accessed by `mcp_core.py` (`response.candidates[i].content.parts[j]`,
each part optionally carrying `text` and/or a `function_call`).  Argument
values are numbers or strings (`proto` `number_value`/`string_value`). -/

inductive AVal where
  | num : Int → AVal
  | str : String → AVal
deriving Repr, DecidableEq

abbrev Args := List (String × AVal)

structure FunctionCall where
  name : String
  args : Args
deriving Repr, DecidableEq

structure Part where
  text : Option String
  function_call : Option FunctionCall
deriving Repr, DecidableEq

structure Content where
  parts : List Part
deriving Repr, DecidableEq

structure Candidate where
  content : Option Content
  blocked : Bool
deriving Repr, DecidableEq

structure Response where
  candidates : List Candidate
deriving Repr, DecidableEq

/-- One item of `tool_response.content` from the MCP session. -/
structure TRContent where
  text : String
deriving Repr, DecidableEq

/-- `tool_response` from `session.call_tool`. -/
structure ToolResponse where
  content : List TRContent
deriving Repr, DecidableEq

/-- The `{"success": ..., "result": ...}` dict returned by `execute_action`. -/
structure ToolResult where
  success : Bool
  result : String
deriving Repr, DecidableEq

/-- A row appended to the CSV execution log by `_log_function_call`. -/
structure LogRecord where
  function_call : String
  result : String
  success : Bool
deriving Repr, DecidableEq

/-- Externally observable capability/engine invocations, recorded at each
call site of the model. -/
inductive Event where
  | remoteCall (name : String) (args : Args)
  | observeLocal (step : Int)
  | sceneInfoLocal (name path : String)
  | convertCall (text : String)
deriving Repr, DecidableEq

/-- `true` for events that invoke a capability (remote tool call or a
local capability handler), `false` for the dedicated text-to-action
translation call to the reasoning engine. -/
def Event.isCap : Event → Bool
  | .remoteCall _ _ => true
  | .observeLocal _ => true
  | .sceneInfoLocal _ _ => true
  | .convertCall _ => false

/-- External behavior visible to `execute_action` / `_handle_response`:
the remote MCP session (`call_tool` may raise, return `None`, or return a
response), the local `observe_scene` and `scene_info` capabilities (whose
own internals may raise), the dedicated function-call model used by
`_convert_text_action_to_function_call`, and `proto.Message.to_dict`
(which may raise, triggering the `getattr` fallback). -/
structure DispatchEnv where
  callTool : String → Args → Except PyErr (Option ToolResponse)
  observe : Int → Except PyErr String
  sceneInfo : String → String → Except PyErr String
  convert : String → Except PyErr Response
  protoToDict : FunctionCall → Except PyErr (String × Args)

/-- `proto.Message.to_dict(function_call)` with the `getattr` fallback of
mcp_core.py lines 598-610 / 676-682: on a conversion exception the code
reads `name`/`args` directly off the object, which cannot fail. -/
def convertFC (env : DispatchEnv) (fc : FunctionCall) : String × Args :=
  match env.protoToDict fc with
  | .ok d => d
  | .error _ => (fc.name, fc.args)

def dumpsAVal : AVal → String
  | .num n => toString n
  | .str s => "\"" ++ s ++ "\""

def dumpsArgs (args : Args) : String :=
  "\x7b" ++ String.intercalate ", "
    (args.map (fun kv => "\"" ++ kv.1 ++ "\": " ++ dumpsAVal kv.2)) ++ "\x7d"

/-- `json.dumps({"name": tool_name, "args": tool_args})`. -/
def dumpsCall (name : String) (args : Args) : String :=
  "\x7b\"name\": \"" ++ name ++ "\", \"args\": " ++ dumpsArgs args ++ "\x7d"

/- The inner `try` of `execute_action` (mcp_core.py lines 620-651): call
the remote tool; a raised exception, a `None` response, or a response
with empty `content` each produce a failed result and a failed log row;
otherwise success is the substring heuristic on the lowercased text. -/
def execDispatch (env : DispatchEnv) (toolName : String) (toolArgs : Args) :
    ToolResult × List Event × List LogRecord :=
  let fcStr := dumpsCall toolName toolArgs
  match env.callTool toolName toolArgs with
  | .error e =>
      (⟨false, "MCP Tool " ++ toolName ++ " error: " ++ e⟩,
        [.remoteCall toolName toolArgs], [⟨fcStr, e, false⟩])
  | .ok none =>
      (⟨false, "MCP Tool " ++ toolName ++ ": No response"⟩,
        [.remoteCall toolName toolArgs], [⟨fcStr, "No response", false⟩])
  | .ok (some tr) =>
      match tr.content with
      | [] =>
          (⟨false, "MCP Tool " ++ toolName ++ ": No response"⟩,
            [.remoteCall toolName toolArgs], [⟨fcStr, "No response", false⟩])
      | c :: _ =>
          let ok := pyIn "\"success\": true" (pyLower c.text)
          (⟨ok, "MCP Tool " ++ toolName ++ ": " ++ c.text⟩,
            [.remoteCall toolName toolArgs], [⟨fcStr, c.text, ok⟩])

/- The part loop of `execute_action`: skip parts without a function
call; the first function-call part is converted and dispatched, and the
function returns immediately with that result. -/
def execParts (env : DispatchEnv) :
    List Part → Option ToolResult × List Event × List LogRecord
  | [] => (none, [], [])
  | p :: ps =>
      match p.function_call with
      | none => execParts env ps
      | some fc =>
          let nameArgs := convertFC env fc
          let d := execDispatch env nameArgs.1 nameArgs.2
          (some d.1, d.2.1, d.2.2)

/- The candidate loop of `execute_action`: candidates without content or
without a dispatched part are skipped; falling off the end of the loops
returns Python `None`. -/
def execCandidates (env : DispatchEnv) :
    List Candidate → Option ToolResult × List Event × List LogRecord
  | [] => (none, [], [])
  | c :: cs =>
      match c.content with
      | none => execCandidates env cs
      | some content =>
          let ep := execParts env content.parts
          match ep.1 with
          | some r => (some r, ep.2.1, ep.2.2)
          | none => execCandidates env cs

/- `ReActAgent.execute_action` (mcp_core.py lines 563-659).  An empty
candidate list returns the `No response candidates found` failure dict;
otherwise the loops above run.  The surrounding `try` (line 565/657)
converts any escaping exception into a failure dict; every raising
subcomputation is modelled through `DispatchEnv` and handled above, so
the function is total. -/
def executeAction (env : DispatchEnv) (r : Response) :
    Option ToolResult × List Event × List LogRecord :=
  match r.candidates with
  | [] => (some ⟨false, "No response candidates found"⟩, [], [])
  | c :: cs => execCandidates env (c :: cs)

/-- `true` when some candidate has a content part carrying a function call. -/
def hasStructuredCall (r : Response) : Bool :=
  r.candidates.any (fun c =>
    match c.content with
    | some content => content.parts.any (fun p => p.function_call.isSome)
    | none => false)

/- `ReActAgent._extract_response_text` (mcp_core.py lines 749-792): no
candidates or no content yields `""`; a blocked safety rating yields the
fixed message; otherwise the Python `str(parts)` representation.  The
`reprParts` rendering below fixes one concrete format for `str(parts)`
(text of every part quoted in order, then the function calls); all
claims depend only on it being a deterministic function of the parts
that embeds each part's text. -/
def reprPart (p : Part) : String :=
  (match p.text with
   | some t => "text: \"" ++ t ++ "\"\n"
   | none => "") ++
  (match p.function_call with
   | some fc => "function_call \x7b name: \"" ++ fc.name ++ "\" \x7d\n"
   | none => "")

def reprParts (ps : List Part) : String :=
  "[" ++ String.intercalate ", " (ps.map reprPart) ++ "]"

def extractResponseText (r : Response) : String :=
  match r.candidates with
  | [] => ""
  | c :: _ =>
      if c.blocked then "Response blocked due to safety rating"
      else
        match c.content with
        | none => ""
        | some content => reprParts content.parts

/-- The first function-call part of `candidates[0].content.parts`, the
only part `_handle_response` ever dispatches. -/
def firstFCPart (r : Response) : Option FunctionCall :=
  match r.candidates with
  | [] => none
  | c :: _ =>
      match c.content with
      | none => none
      | some content => content.parts.findSome? (fun p => p.function_call)

/- `_convert_text_action_to_function_call` (mcp_core.py lines 820-856):
one dedicated low-temperature call to the function-call model; its own
`try` returns `None` on any exception. -/
def convertTextAction (env : DispatchEnv) (text : String) : Option Response :=
  match env.convert text with
  | .ok r => some r
  | .error _ => none

/-- Python `int(x)` on an argument value: numbers pass through, strings
raise in this model (proto function-call arguments arrive as numbers). -/
def toIntE : AVal → Except PyErr Int
  | .num n => .ok n
  | .str s => .error ("invalid literal for int(): " ++ s)

/-- `args.get(key, default)`. -/
def getArg (args : Args) (key : String) (dflt : AVal) : AVal :=
  match args.find? (fun kv => kv.1 == key) with
  | some kv => kv.2
  | none => dflt

def getArgStr (args : Args) (key : String) (dflt : String) : String :=
  match getArg args key (.str dflt) with
  | .str s => s
  | .num n => toString n

/-- Python `f"{action_response}"` on the dict or `None` returned by
`execute_action`. -/
def reprOptToolResult : Option ToolResult → String
  | none => "None"
  | some tr =>
      "\x7b'success': " ++ (if tr.success then "True" else "False") ++
        ", 'result': '" ++ tr.result ++ "'\x7d"

/-- The structured branch of `_handle_response` (mcp_core.py lines
673-735) for the first function-call part: `observe_scene` and
`scene_info` route to the local capability handlers, everything else to
the remote session; each sub-branch has its own `try` that converts an
exception into error text (logging a failed row), and failures of the
remote call are surfaced in the returned text. -/
def dispatchStructured (env : DispatchEnv) (curStep : Int) (text : String)
    (fc : FunctionCall) : String × List Event × List LogRecord :=
  let nameArgs := convertFC env fc
  let toolName := nameArgs.1
  let toolArgs := nameArgs.2
  let fcStr := dumpsCall toolName toolArgs
  if toolName = "observe_scene" then
    match toIntE (getArg toolArgs "step" (.num curStep)) with
    | .error e =>
        (text ++ "\n\nScene observation error: " ++ e, [], [⟨fcStr, e, false⟩])
    | .ok step =>
        match env.observe step with
        | .ok obs =>
            (text ++ "\n\nScene observation completed:\n" ++ obs,
              [.observeLocal step], [])
        | .error e =>
            (text ++ "\n\nScene observation error: " ++ e,
              [.observeLocal step], [⟨fcStr, e, false⟩])
  else if toolName = "scene_info" then
    let sceneName := getArgStr toolArgs "name" "SampleScene"
    let scenePath := getArgStr toolArgs "path" "/"
    match env.sceneInfo sceneName scenePath with
    | .ok info =>
        (text ++ "\n\nScene information retrieved:\n" ++ info,
          [.sceneInfoLocal sceneName scenePath], [])
    | .error e =>
        (text ++ "\n\nScene info error: " ++ e,
          [.sceneInfoLocal sceneName scenePath], [⟨fcStr, e, false⟩])
  else
    match env.callTool toolName toolArgs with
    | .error e =>
        (text ++ "\n\nTool execution error: " ++ e,
          [.remoteCall toolName toolArgs], [⟨fcStr, e, false⟩])
    | .ok none =>
        (text ++ "\n\nTool executed: " ++ toolName ++ "\nTool response: No response",
          [.remoteCall toolName toolArgs], [⟨fcStr, "No response", false⟩])
    | .ok (some tr) =>
        match tr.content with
        | [] =>
            (text ++ "\n\nTool executed: " ++ toolName ++
                "\nTool response: No response",
              [.remoteCall toolName toolArgs], [⟨fcStr, "No response", false⟩])
        | c :: _ =>
            let ok := pyIn "\"success\": true" (pyLower c.text)
            (text ++ "\n\nTool executed: " ++ toolName ++ "\nTool response: " ++
                c.text,
              [.remoteCall toolName toolArgs], [⟨fcStr, c.text, ok⟩])

/- `ReActAgent._handle_response` (mcp_core.py lines 661-747): extract the
text, dispatch the first function-call part if any, otherwise run the
text-to-action fallback (`_convert_text_action_to_function_call`, whose
result — a raw engine response — is handed to `execute_action`); return
the text alone when the fallback produced nothing.  The outer `try`
(line 663/746) would turn an escaping exception into the `Error handling
response` string; every raising subcomputation is modelled through
`DispatchEnv` and handled in the branches, so the function is total. -/
def handleResponse (env : DispatchEnv) (curStep : Int) (r : Response) :
    String × List Event × List LogRecord :=
  let text := extractResponseText r
  match firstFCPart r with
  | some fc => dispatchStructured env curStep text fc
  | none =>
      match convertTextAction env text with
      | none => (text, [.convertCall text], [])
      | some resp =>
          let ea := executeAction env resp
          (text ++ "\n\nParsed and executed action: " ++ reprOptToolResult ea.1,
            .convertCall text :: ea.2.1, ea.2.2)

/-! ## Reflector and run loop -/

/-- One `{step, thought, action, result, reflection, timestamp}` entry of
`self.memory`. -/
structure MemoryEntry where
  step : Nat
  thought : String
  action : String
  result : String
  reflection : String
  timestamp : String
deriving Repr, DecidableEq

/-- Python `l[-n:]`. -/
def lastN {α : Type} (n : Nat) (l : List α) : List α := l.drop (l.length - n)

def dumpsMemoryEntry (e : MemoryEntry) : String :=
  "\x7b\"step\": " ++ toString e.step ++ ", \"thought\": \"" ++ e.thought ++
    "\", \"action\": \"" ++ e.action ++ "\", \"result\": \"" ++ e.result ++
    "\", \"reflection\": \"" ++ e.reflection ++ "\", \"timestamp\": \"" ++
    e.timestamp ++ "\"\x7d"

/-- `json.dumps(self.memory[-3:], indent=2) if self.memory else "None"`. -/
def dumpsRecentMemory (memory : List MemoryEntry) : String :=
  match memory with
  | [] => "None"
  | _ => "[" ++ String.intercalate ", " ((lastN 3 memory).map dumpsMemoryEntry) ++ "]"

/-- The reflection prompt of `reflect_on_result` (mcp_core.py lines 481-496). -/
def reflectionPrompt (toolsStr goal action result : String)
    (memory : List MemoryEntry) : String :=
  "Reflect on the latest action and its result in context of the previous actions:\n\n" ++
    "Goal: " ++ goal ++ "\nLatest action taken: " ++ action ++
    "\nResult of latest action: " ++ result ++ "\nAvailable MCP Tools: " ++
    toolsStr ++ ".\nPrevious actions: " ++ dumpsRecentMemory memory ++
    "\nAlso attached are the attachments provided by user, if any.\n\n" ++
    "Please analyze:\n1. What worked and what didn't?\n2. What should be tried next?\n" ++
    "3. Are we closer to or further from the goal?\n4. Should we try a different approach?\n\n" ++
    "Provide a brief reflection that will guide the next action:"

/- `ReActAgent.reflect_on_result` (mcp_core.py lines 479-515): builds the
prompt and calls `reasoning_model.generate_content`, returning
`response.text`.  The body contains no `try`/`except`: an exception
raised by the engine call propagates to the caller unchanged. -/
def reflectOnResult (engine : String → Except PyErr String)
    (toolsStr goal action result : String) (memory : List MemoryEntry) :
    Except PyErr String :=
  engine (reflectionPrompt toolsStr goal action result memory)

/-- External behavior during one loop iteration: the planning call's
outcome (`reasoning_model.generate_content`, which may raise), the
dispatch-time environment, the outcome of the single reflection call
made this iteration, the goal-oracle call's outcome, and the timestamp
recorded in memory. -/
structure IterEnv where
  plan : Except PyErr Response
  denv : DispatchEnv
  reflect : Except PyErr String
  goalOracle : Except PyErr String
  timestamp : String

/-- How the `try` body of one loop iteration exits when no exception is
raised. -/
inductive IterExit where
  | taskComplete
  | goalDone (entry : MemoryEntry)
  | cycleDone (entry : MemoryEntry)
deriving Repr, DecidableEq

/- The `try` body of one iteration of `run_react_loop` (mcp_core.py
lines 953-1044): plan, extract thought/action, handle the response,
short-circuit on `TASK_COMPLETE`, reflect, append to memory, check the
goal oracle.  `extractTA` abstracts `_extract_thought_and_action`
(lines 858-917), whose output strings are stored in memory but never
affect control flow; the theorems below hold for every extraction
function.  The two subcomputations that can raise are the planning call
and the reflection call, so the computation lives in `Except`. -/
def iterBody (extractTA : String → String × String) (toolsStr goal : String)
    (ie : IterEnv) (stepN : Nat) (memory : List MemoryEntry) :
    Except PyErr IterExit :=
  match ie.plan with
  | .error e => .error e
  | .ok response =>
      let ta := extractTA (extractResponseText response)
      let result := (handleResponse ie.denv (Int.ofNat stepN) response).1
      if pyIn "TASK_COMPLETE" result then .ok .taskComplete
      else
        match reflectOnResult (fun _ => ie.reflect) toolsStr goal ta.2 result
          memory with
        | .error e => .error e
        | .ok reflection =>
            let entry : MemoryEntry :=
              ⟨stepN, ta.1, ta.2, result, reflection, ie.timestamp⟩
            if checkGoalCompletion ie.goalOracle then .ok (.goalDone entry)
            else .ok (.cycleDone entry)

/-- Loop state: `self.current_step`, `self.memory`, the
`consecutive_failures` counter, and a ghost count of planning calls
issued (one per iteration, at mcp_core.py line 970). -/
structure LoopState where
  step : Nat
  memory : List MemoryEntry
  failures : Nat
  planCalls : Nat
deriving Repr, DecidableEq

/-- The four return paths of `run_react_loop`. -/
inductive RunOutcome where
  | taskComplete (step : Nat)
  | goalAchieved (step : Nat)
  | maxFailures (step : Nat)
  | maxStepsExhausted
deriving Repr, DecidableEq

/- The `while self.current_step < self.max_steps` loop (mcp_core.py
lines 937-1061).  `current_step` starts at 0 and is incremented exactly
once at the top of each iteration, so the remaining iteration budget is
`max_steps - current_step`; `fuel` carries that quantity, making the
recursion structural.  The `match` on `iterBody` is the
`try`/`except llm_error` of lines 953/1046: an exception increments the
failure counter (which the source never resets) and either aborts at the
threshold (`>=`, line 1051) or continues with the next step. -/
def runFuel (extractTA : String → String × String) (toolsStr goal : String)
    (env : Nat → IterEnv) (maxFail : Nat) :
    Nat → LoopState → Except PyErr (RunOutcome × LoopState)
  | 0, st => .ok (.maxStepsExhausted, st)
  | fuel + 1, st =>
      let stepN := st.step + 1
      let st₁ : LoopState :=
        { st with step := stepN, planCalls := st.planCalls + 1 }
      match iterBody extractTA toolsStr goal (env stepN) stepN st.memory with
      | .error _ =>
          let f := st₁.failures + 1
          if maxFail ≤ f then
            .ok (.maxFailures stepN, { st₁ with failures := f })
          else
            runFuel extractTA toolsStr goal env maxFail fuel
              { st₁ with failures := f }
      | .ok .taskComplete => .ok (.taskComplete stepN, st₁)
      | .ok (.goalDone entry) =>
          .ok (.goalAchieved stepN, { st₁ with memory := st₁.memory ++ [entry] })
      | .ok (.cycleDone entry) =>
          runFuel extractTA toolsStr goal env maxFail fuel
            { st₁ with memory := st₁.memory ++ [entry] }

/-- `ReActAgent.run_react_loop` (mcp_core.py lines 919-1061) with
`current_step = 0`, empty memory and failure counter 0; the source fixes
`max_steps = 50` and `max_consecutive_failures = 5`. -/
def runReactLoop (extractTA : String → String × String) (toolsStr goal : String)
    (env : Nat → IterEnv) (maxSteps maxFail : Nat) :
    Except PyErr (RunOutcome × LoopState) :=
  runFuel extractTA toolsStr goal env maxFail maxSteps ⟨0, [], 0, 0⟩

/-- Concrete environment whose remote call raises, for witnesses. -/
def envFail : DispatchEnv :=
  { callTool := fun _ _ => .error "boom"
    observe := fun _ => .error "boom"
    sceneInfo := fun _ _ => .error "boom"
    convert := fun _ => .error "boom"
    protoToDict := fun fc => .ok (fc.name, fc.args) }

/-- A concrete response carrying one structured `manage_scene` call. -/
def fcW : FunctionCall := ⟨"manage_scene", [("action", .str "get_hierarchy")]⟩

def rW : Response := ⟨[⟨some ⟨[⟨none, some fcW⟩]⟩, false⟩]⟩

/-! ## Text-to-action fallback (claim C9) -/

/-- The planner free-text response of the C9 scenario: a `Thought:` /
`Action:` text with no structured function-call part. -/
def rC9 : Response :=
  ⟨[⟨some ⟨[⟨some "Thought: I should look at the scene.\nAction: observe_scene(step=3)",
    none⟩]⟩, false⟩]⟩

/-- The structured response the dedicated function-call model returns
for that text: a single `observe_scene(step=3)` call. -/
def respFC9 : Response :=
  ⟨[⟨some ⟨[⟨none, some ⟨"observe_scene", [("step", .num 3)]⟩⟩]⟩, false⟩]⟩

def envC9 : DispatchEnv :=
  { callTool := fun _ _ => .ok (some ⟨[⟨"\x7b\"success\": true\x7d"⟩]⟩)
    observe := fun _ => .ok "scene description"
    sceneInfo := fun _ _ => .ok "hierarchy"
    convert := fun _ => .ok respFC9
    protoToDict := fun fc => .ok (fc.name, fc.args) }

/-- Fixed thought/action extraction used by the concrete runs. -/
def extractTA0 : String → String × String := fun _ => ("thought", "action")

/-- Dispatch environment in which every external call raises. -/
def denvStub : DispatchEnv :=
  { callTool := fun _ _ => .error "stub"
    observe := fun _ => .error "stub"
    sceneInfo := fun _ _ => .error "stub"
    convert := fun _ => .error "stub"
    protoToDict := fun fc => .ok (fc.name, fc.args) }

/-- A plain text-only planner response. -/
def respPlain : Response := ⟨[⟨some ⟨[⟨some "Thought: ok", none⟩]⟩, false⟩]⟩

/-- An iteration in which every engine call succeeds and the oracle says
the goal is not achieved: a full Planning→Dispatching→Reflecting cycle. -/
def iterOk : IterEnv :=
  { plan := .ok respPlain
    denv := denvStub
    reflect := .ok "keep going"
    goalOracle := .ok "GOAL_NOT_ACHIEVED"
    timestamp := "2024-01-01T00:00:00" }

/-- An iteration whose planning call raises. -/
def iterFail : IterEnv := { iterOk with plan := .error "503 quota exceeded" }

/-- A full successful cycle after which the oracle reports success. -/
def iterOkDone : IterEnv := { iterOk with goalOracle := .ok "GOAL_ACHIEVED" }

/-- Reasoning-engine behavior with failures at steps 1-4 and 6 and a
successful full cycle at step 5. -/
def envC2 : Nat → IterEnv := fun i => if i = 5 then iterOk else iterFail

/-- Reasoning-engine behavior: successful cycle at step 1, planning
failure at step 2, successful cycle at step 3 after which the oracle
reports success. -/
def envC7 : Nat → IterEnv := fun i =>
  if i = 2 then iterFail else if i = 3 then iterOkDone else iterOk

/-- `true` when iteration `i` under behavior `env` completes a full
Dispatching→Reflecting cycle (it appends a memory entry): the planning
call succeeds, the result does not short-circuit on `TASK_COMPLETE`, and
the reflection call succeeds.  Determined by the iteration's external
behavior alone. -/
def cycleCompleted (extractTA : String → String × String)
    (toolsStr goal : String) (env : Nat → IterEnv) (i : Nat) : Bool :=
  match iterBody extractTA toolsStr goal (env i) i [] with
  | .ok (.goalDone _) => true
  | .ok (.cycleDone _) => true
  | _ => false

/-- The steps in `1..n` whose iteration completes a full cycle. -/
def completedSteps (extractTA : String → String × String)
    (toolsStr goal : String) (env : Nat → IterEnv) : Nat → List Nat
  | 0 => []
  | n + 1 => completedSteps extractTA toolsStr goal env n ++
      (if cycleCompleted extractTA toolsStr goal env (n + 1) then [n + 1] else [])

/-! ## Theorems -/

mutual
theorem hasKey_removeKey (v : JVal) (k : String) :
    hasKey (removeKey v k) k = false := by
  match v with
  | .scalar s => rfl
  | .dict kvs => simpa [removeKey, hasKey] using hasKeyEntries_removeKeyEntries kvs k
  | .list vs => simpa [removeKey, hasKey] using hasKeyMembers_removeKeyMembers vs k
theorem hasKeyEntries_removeKeyEntries (kvs : List (String × JVal)) (k : String) :
    hasKeyEntries (removeKeyEntries kvs k) k = false := by
  match kvs with
  | [] => rfl
  | (k', v) :: rest =>
      by_cases h : k' = k
      · simpa [removeKeyEntries, h] using hasKeyEntries_removeKeyEntries rest k
      · simp [removeKeyEntries, h, hasKeyEntries, hasKey_removeKey v k,
          hasKeyEntries_removeKeyEntries rest k]
theorem hasKeyMembers_removeKeyMembers (vs : List JVal) (k : String) :
    hasKeyMembers (removeKeyMembers vs k) k = false := by
  match vs with
  | [] => rfl
  | v :: rest =>
      simp [removeKeyMembers, hasKeyMembers, hasKey_removeKey v k,
        hasKeyMembers_removeKeyMembers rest k]
end

mutual
theorem removeKey_notKey (v : JVal) (k : String) (h : hasKey v k = false) :
    removeKey v k = v := by
  match v with
  | .scalar s => rfl
  | .dict kvs =>
      simp only [hasKey] at h
      simp [removeKey, removeKeyEntries_notKey kvs k h]
  | .list vs =>
      simp only [hasKey] at h
      simp [removeKey, removeKeyMembers_notKey vs k h]
theorem removeKeyEntries_notKey (kvs : List (String × JVal)) (k : String)
    (h : hasKeyEntries kvs k = false) : removeKeyEntries kvs k = kvs := by
  match kvs with
  | [] => rfl
  | (k', v) :: rest =>
      simp only [hasKeyEntries, Bool.or_eq_false_iff, decide_eq_false_iff_not] at h
      simp [removeKeyEntries, h.1.1, removeKey_notKey v k h.1.2,
        removeKeyEntries_notKey rest k h.2]
theorem removeKeyMembers_notKey (vs : List JVal) (k : String)
    (h : hasKeyMembers vs k = false) : removeKeyMembers vs k = vs := by
  match vs with
  | [] => rfl
  | v :: rest =>
      simp only [hasKeyMembers, Bool.or_eq_false_iff] at h
      simp [removeKeyMembers, removeKey_notKey v k h.1,
        removeKeyMembers_notKey rest k h.2]
end

/-- Claim C6: `remove_key` removes every occurrence of the target key at
any depth (no mapping reachable in the result contains the key), and
applying it a second time leaves the structure unchanged. -/
theorem remove_key_removes_all_and_idempotent (v : JVal) (k : String) :
    hasKey (removeKey v k) k = false ∧
    removeKey (removeKey v k) k = removeKey v k :=
  ⟨hasKey_removeKey v k, removeKey_notKey _ k (hasKey_removeKey v k)⟩

theorem startsWithL_iff (pat : List Char) :
    ∀ l, startsWithL pat l = true ↔ ∃ t, l = pat ++ t := by
  induction pat with
  | nil => intro l; simp [startsWithL]
  | cons c cs ih =>
      intro l
      cases l with
      | nil => simp [startsWithL]
      | cons d ds =>
          simp only [startsWithL, Bool.and_eq_true, beq_iff_eq, ih ds]
          constructor
          · rintro ⟨h, t, rfl⟩; exact ⟨t, by simp [h]⟩
          · rintro ⟨t, h⟩
            obtain ⟨h1, h2⟩ := List.cons.injEq .. ▸ h
            exact ⟨h1.symm, t, h2⟩

theorem hasSubL_iff (pat : List Char) :
    ∀ l, hasSubL pat l = true ↔ ∃ s t, l = s ++ pat ++ t := by
  intro l
  induction l with
  | nil =>
      simp only [hasSubL, startsWithL_iff]
      constructor
      · rintro ⟨t, h⟩; exact ⟨[], t, by simpa using h⟩
      · rintro ⟨s, t, h⟩
        rw [List.append_assoc] at h
        obtain ⟨hs, h2⟩ := List.append_eq_nil.mp h.symm
        exact ⟨t, by simp [hs] at h ⊢; exact h⟩
  | cons c l ih =>
      simp only [hasSubL, Bool.or_eq_true, startsWithL_iff, ih]
      constructor
      · rintro (⟨t, h⟩ | ⟨s, t, h⟩)
        · exact ⟨[], t, by simpa using h⟩
        · exact ⟨c :: s, t, by simp [h]⟩
      · rintro ⟨s, t, h⟩
        cases s with
        | nil => exact Or.inl ⟨t, by simpa using h⟩
        | cons a s =>
            obtain ⟨-, h2⟩ := List.cons.injEq .. ▸ h
            exact Or.inr ⟨s, t, h2⟩

theorem hasSubL_reverse (pat y : List Char) :
    hasSubL pat y.reverse = true ↔ hasSubL pat.reverse y = true := by
  rw [hasSubL_iff, hasSubL_iff]
  constructor
  · rintro ⟨s, t, h⟩
    refine ⟨t.reverse, s.reverse, ?_⟩
    have h' := congrArg List.reverse h
    simpa [List.reverse_append, List.append_assoc] using h'
  · rintro ⟨s, t, h⟩
    refine ⟨t.reverse, s.reverse, ?_⟩
    have h' := congrArg List.reverse h
    simpa [List.reverse_append, List.append_assoc] using h'

theorem pyWS_toUpperChar {c : Char} (h : pyWS c = true) : pyToUpperChar c = c := by
  simp only [pyWS, Bool.or_eq_true, beq_iff_eq] at h
  rcases h with ((((rfl | rfl) | rfl) | rfl) | rfl) | rfl <;> decide

theorem hasSubL_upper_dropWhile (pat : List Char) (hne : pat ≠ [])
    (hws : ∀ c ∈ pat, pyWS c = false) :
    ∀ l, hasSubL pat (pyUpperL (l.dropWhile pyWS)) = true ↔
      hasSubL pat (pyUpperL l) = true := by
  intro l
  induction l with
  | nil => simp
  | cons c l ih =>
      rcases hc : pyWS c with _ | _
      · simp [List.dropWhile_cons, hc]
      · rw [List.dropWhile_cons, if_pos (by simp [hc])]
        rw [ih]
        cases pat with
        | nil => exact absurd rfl hne
        | cons p ps =>
            have hpc : (p == pyToUpperChar c) = false := by
              rw [pyWS_toUpperChar hc]
              have hp : pyWS p = false := hws p (by simp)
              simp only [beq_eq_false_iff_ne, ne_eq]
              rintro rfl
              rw [hp] at hc
              exact Bool.false_ne_true hc
            simp [pyUpperL, hasSubL, startsWithL, hpc]

theorem hasSubL_upper_strip (pat l : List Char) (hne : pat ≠ [])
    (hws : ∀ c ∈ pat, pyWS c = false) :
    hasSubL pat (pyUpperL (pyStripL l)) = true ↔
      hasSubL pat (pyUpperL l) = true := by
  have hne' : pat.reverse ≠ [] := by simpa using hne
  have hws' : ∀ c ∈ pat.reverse, pyWS c = false := by
    intro c hcmem
    exact hws c (List.mem_reverse.mp hcmem)
  unfold pyStripL
  rw [show pyUpperL (((l.dropWhile pyWS).reverse.dropWhile pyWS).reverse) =
      (pyUpperL ((l.dropWhile pyWS).reverse.dropWhile pyWS)).reverse from
    List.map_reverse ..]
  rw [hasSubL_reverse]
  rw [hasSubL_upper_dropWhile pat.reverse hne' hws' ((l.dropWhile pyWS).reverse)]
  rw [show pyUpperL ((l.dropWhile pyWS).reverse) =
      (pyUpperL (l.dropWhile pyWS)).reverse from List.map_reverse ..]
  rw [hasSubL_reverse, List.reverse_reverse]
  exact hasSubL_upper_dropWhile pat hne hws l

/-- Claim C5: the goal-completion oracle returns `true` exactly when the
uppercased engine response contains the token `GOAL_ACHIEVED` (the
`strip()` the code performs first cannot create or destroy an occurrence
of a whitespace-free token), and an exception in the engine call yields
`false`. -/
theorem check_goal_completion_token_iff_and_fail_false :
    (∀ text : String,
      (checkGoalCompletion (Except.ok text) = true ↔
        hasSubL "GOAL_ACHIEVED".toList (pyUpperL text.toList) = true))
    ∧ ∀ e : PyErr, checkGoalCompletion (Except.error e) = false := by
  constructor
  · intro text
    unfold checkGoalCompletion
    exact hasSubL_upper_strip "GOAL_ACHIEVED".toList text.toList
      (by decide) (by decide)
  · intro e
    rfl

/-! ## Dispatcher theorems (claims C4, C9, C10) -/

theorem execParts_isSome (env : DispatchEnv) :
    ∀ ps : List Part, (execParts env ps).1.isSome =
      ps.any (fun p => p.function_call.isSome) := by
  intro ps
  induction ps with
  | nil => rfl
  | cons p ps ih =>
      cases hfc : p.function_call with
      | none => simp [execParts, hfc, ih]
      | some fc => simp [execParts, hfc]

theorem execCandidates_isSome (env : DispatchEnv) :
    ∀ cs : List Candidate, (execCandidates env cs).1.isSome =
      cs.any (fun c =>
        match c.content with
        | some content => content.parts.any (fun p => p.function_call.isSome)
        | none => false) := by
  intro cs
  induction cs with
  | nil => rfl
  | cons c cs ih =>
      cases hc : c.content with
      | none => simp [execCandidates, hc, ih]
      | some content =>
          rcases hp : (execParts env content.parts).1 with _ | r
          · have := execParts_isSome env content.parts
            rw [hp] at this
            simp [execCandidates, hc, hp, ih, ← this]
          · have := execParts_isSome env content.parts
            rw [hp] at this
            simp [execCandidates, hc, hp, ← this]

theorem check_goal_completion_token_iff_and_fail_false_witness :
    checkGoalCompletion (Except.ok "  Verdict: goal_achieved.  ") = true ∧
    checkGoalCompletion (Except.error "DeadlineExceeded") = false :=
  ⟨(check_goal_completion_token_iff_and_fail_false.1
      "  Verdict: goal_achieved.  ").mpr (by decide),
    check_goal_completion_token_iff_and_fail_false.2 "DeadlineExceeded"⟩

/-- Claim C4: the dispatcher never raises and converts every failure into
a value.  For any external behavior (including a raising remote call),
`execute_action` on a response holding a structured call returns a
`ToolResult` dict; its inner handler maps a remote-call exception, a
`None` tool response, and a response with no content each to
`success = false` with a diagnostic; and in `_handle_response`'s
tool-execution branch the same three failures are returned as diagnostic
text with a `success = false` row appended to the execution log. -/
theorem dispatch_never_raises_failures_become_values (env : DispatchEnv)
    (r : Response) (curStep : Int) (text : String) :
    (hasStructuredCall r = true → (executeAction env r).1.isSome = true)
    ∧ (∀ name args e, env.callTool name args = .error e →
        (execDispatch env name args).1 =
          ⟨false, "MCP Tool " ++ name ++ " error: " ++ e⟩)
    ∧ (∀ name args, env.callTool name args = .ok none →
        (execDispatch env name args).1 =
          ⟨false, "MCP Tool " ++ name ++ ": No response"⟩)
    ∧ (∀ name args tr, env.callTool name args = .ok (some tr) →
        tr.content = [] →
        (execDispatch env name args).1 =
          ⟨false, "MCP Tool " ++ name ++ ": No response"⟩)
    ∧ (∀ fc name args e, convertFC env fc = (name, args) →
        name ≠ "observe_scene" → name ≠ "scene_info" →
        env.callTool name args = .error e →
        dispatchStructured env curStep text fc =
          (text ++ "\n\nTool execution error: " ++ e,
            [.remoteCall name args], [⟨dumpsCall name args, e, false⟩])) := by
  refine ⟨?_, ?_, ?_, ?_, ?_⟩
  · intro h
    cases hcs : r.candidates with
    | nil => simp [executeAction, hcs]
    | cons c cs =>
        rw [executeAction, hcs, execCandidates_isSome]
        rw [hasStructuredCall, hcs] at h
        exact h
  · intro name args e h
    simp [execDispatch, h]
  · intro name args h
    simp [execDispatch, h]
  · intro name args tr h hc
    simp [execDispatch, h, hc]
  · intro fc name args e hconv h1 h2 hct
    simp [dispatchStructured, hconv, h1, h2, hct]

theorem dispatch_never_raises_failures_become_values_witness :
    (executeAction envFail rW).1.isSome = true ∧
    (execDispatch envFail "manage_scene" []).1 =
      ⟨false, "MCP Tool manage_scene error: boom"⟩ :=
  ⟨(dispatch_never_raises_failures_become_values envFail rW 0 "").1 (by decide),
    (dispatch_never_raises_failures_become_values envFail rW 0 "").2.1
      "manage_scene" [] "boom" rfl⟩

theorem execParts_cap_le_one (env : DispatchEnv) :
    ∀ ps : List Part, ((execParts env ps).2.1.countP Event.isCap) ≤ 1 := by
  intro ps
  induction ps with
  | nil => exact Nat.zero_le 1
  | cons p ps ih =>
      cases hfc : p.function_call with
      | none => simpa [execParts, hfc] using ih
      | some fc =>
          rw [execParts, hfc]
          rcases h : env.callTool (convertFC env fc).1 (convertFC env fc).2 with e | tr
          · simp [execDispatch, h, List.countP, List.countP.go, Event.isCap]
          · rcases tr with _ | tr
            · simp [execDispatch, h, List.countP, List.countP.go, Event.isCap]
            · rcases hc : tr.content with _ | ⟨c, rest⟩
              · simp [execDispatch, h, hc, List.countP, List.countP.go, Event.isCap]
              · simp [execDispatch, h, hc, List.countP, List.countP.go, Event.isCap]

theorem execCandidates_cap_le_one (env : DispatchEnv) :
    ∀ cs : List Candidate, ((execCandidates env cs).2.1.countP Event.isCap) ≤ 1 := by
  intro cs
  induction cs with
  | nil => exact Nat.zero_le 1
  | cons c cs ih =>
      cases hc : c.content with
      | none => simpa [execCandidates, hc] using ih
      | some content =>
          rcases hp : (execParts env content.parts).1 with _ | r
          · simpa [execCandidates, hc, hp] using ih
          · have := execParts_cap_le_one env content.parts
            simpa [execCandidates, hc, hp] using this

theorem executeAction_cap_le_one (env : DispatchEnv) (r : Response) :
    ((executeAction env r).2.1.countP Event.isCap) ≤ 1 := by
  cases hcs : r.candidates with
  | nil => rw [executeAction, hcs]; exact Nat.zero_le 1
  | cons c cs =>
      rw [executeAction, hcs]
      exact execCandidates_cap_le_one env (c :: cs)

theorem dispatchStructured_cap_le_one (env : DispatchEnv) (curStep : Int)
    (text : String) (fc : FunctionCall) :
    ((dispatchStructured env curStep text fc).2.1.countP Event.isCap) ≤ 1 := by
  simp only [dispatchStructured]
  split
  · split
    · simp [List.countP, List.countP.go, Event.isCap]
    · split <;> simp [List.countP, List.countP.go, Event.isCap]
  · split
    · split <;> simp [List.countP, List.countP.go, Event.isCap]
    · split
      · simp [List.countP, List.countP.go, Event.isCap]
      · simp [List.countP, List.countP.go, Event.isCap]
      · split <;> simp [List.countP, List.countP.go, Event.isCap]

/-- Claim C10: response handling performs at most one capability
invocation per reasoning-engine response, and when a structured
function-call part is present, the invocation is determined by the first
such part of the first candidate alone (later parts are never
dispatched). -/
theorem at_most_one_capability_invocation (env : DispatchEnv) (curStep : Int)
    (r : Response) :
    ((handleResponse env curStep r).2.1.countP Event.isCap ≤ 1)
    ∧ (∀ fc, firstFCPart r = some fc →
        (handleResponse env curStep r).2.1 =
          (dispatchStructured env curStep (extractResponseText r) fc).2.1) := by
  constructor
  · rw [handleResponse]
    rcases hfc : firstFCPart r with _ | fc
    · rcases hcv : convertTextAction env (extractResponseText r) with _ | resp
      · simp [List.countP, List.countP.go, Event.isCap]
      · have := executeAction_cap_le_one env resp
        simpa [List.countP_cons, Event.isCap] using this
    · exact dispatchStructured_cap_le_one env curStep (extractResponseText r) fc
  · intro fc h
    rw [handleResponse, h]

theorem at_most_one_capability_invocation_witness :
    (handleResponse envFail 0 rW).2.1 =
      (dispatchStructured envFail 0 (extractResponseText rW) fcW).2.1 :=
  (at_most_one_capability_invocation envFail 0 rW).2 fcW rfl

/-- Claim C9 (amended): when the planner response has no structured
call, `_handle_response` makes the dedicated translation call and hands
its result to `execute_action`, which forwards the call — including
`observe_scene` — to the remote tool session; the local observe handler
is not on this path. -/
theorem text_action_fallback_dispatches_remotely (env : DispatchEnv)
    (curStep : Int) (r resp : Response)
    (hnofc : firstFCPart r = none)
    (hconv : env.convert (extractResponseText r) = .ok resp) :
    (handleResponse env curStep r).2.1 =
      .convertCall (extractResponseText r) :: (executeAction env resp).2.1
    ∧ (handleResponse env curStep r).1 =
        extractResponseText r ++ "\n\nParsed and executed action: " ++
          reprOptToolResult (executeAction env resp).1 := by
  refine ⟨?_, ?_⟩ <;> simp [handleResponse, convertTextAction, hnofc, hconv]

theorem text_action_fallback_dispatches_remotely_witness :
    (handleResponse envC9 1 rC9).2.1 =
      .convertCall (extractResponseText rC9) :: (executeAction envC9 respFC9).2.1 :=
  (text_action_fallback_dispatches_remotely envC9 1 rC9 respFC9 rfl rfl).1

/-- Claim C9 counterexample: on the scenario input — free text with an
`Action: observe_scene(step=3)` line and no structured part — the
translated action is dispatched as a remote `observe_scene` call; no
local observe invocation (`Event.observeLocal 3`) happens, contrary to
the claim's "dispatched as the local observe capability". -/
theorem observe_fallback_goes_remote_not_local :
    pyIn "Action: observe_scene(step=3)" (extractResponseText rC9) = true
    ∧ firstFCPart rC9 = none
    ∧ (handleResponse envC9 1 rC9).2.1 =
        [.convertCall (extractResponseText rC9),
          .remoteCall "observe_scene" [("step", AVal.num 3)]]
    ∧ Event.observeLocal 3 ∉ (handleResponse envC9 1 rC9).2.1 := by
  exact ⟨by decide, rfl, rfl, by decide⟩

/-! ## Reflector and loop theorems (claims C8, C1, C2, C3, C7) -/

/-- Claim C8 counterexample: `reflect_on_result` contains no exception
handler, so an exception raised by the reasoning-engine call propagates
to the caller instead of being caught and surfaced as error text. -/
theorem reflect_on_result_raises :
    reflectOnResult (fun _ => .error "ResourceExhausted") "tools" "goal"
      "act" "res" [] = .error "ResourceExhausted" := rfl

theorem runFuel_isOk (extractTA : String → String × String)
    (toolsStr goal : String) (env : Nat → IterEnv) (maxFail : Nat) :
    ∀ (fuel : Nat) (st : LoopState),
      ∃ r, runFuel extractTA toolsStr goal env maxFail fuel st = .ok r := by
  intro fuel
  induction fuel with
  | zero => intro st; exact ⟨_, rfl⟩
  | succ fuel ih =>
      intro st
      simp only [runFuel]
      split
      · split
        · exact ⟨_, rfl⟩
        · exact ih _
      · exact ⟨_, rfl⟩
      · exact ⟨_, rfl⟩
      · exact ih _

/-- Claim C8 (amended): `reflect_on_result` propagates any
reasoning-engine exception to its caller unchanged (it is exactly the
engine call on the reflection prompt), and the run loop's per-iteration
handler catches it, so no exception escapes the run. -/
theorem reflect_propagates_and_loop_catches :
    (∀ (engine : String → Except PyErr String)
        (toolsStr goal action result : String) (memory : List MemoryEntry),
      reflectOnResult engine toolsStr goal action result memory =
        engine (reflectionPrompt toolsStr goal action result memory))
    ∧ ∀ (extractTA : String → String × String) (toolsStr goal : String)
        (env : Nat → IterEnv) (maxSteps maxFail : Nat),
      ∃ r, runReactLoop extractTA toolsStr goal env maxSteps maxFail = .ok r :=
  ⟨fun _ _ _ _ _ _ => rfl, fun extractTA toolsStr goal env maxSteps maxFail =>
    runFuel_isOk extractTA toolsStr goal env maxFail maxSteps ⟨0, [], 0, 0⟩⟩

/-- Claim C1: no external-dependency exception terminates a run: for
every external behavior (arbitrary success/raise outcomes of the
planning call, dispatch calls, observation, reflection and oracle calls
at every step), `run_react_loop` returns a value — the `RunOutcome` type
enumerates exactly the completion paths (`TASK_COMPLETE` in the result,
oracle true, failure threshold, step budget). -/
theorem run_react_loop_never_propagates (extractTA : String → String × String)
    (toolsStr goal : String) (env : Nat → IterEnv) (maxSteps maxFail : Nat) :
    ∃ r, runReactLoop extractTA toolsStr goal env maxSteps maxFail = .ok r :=
  runFuel_isOk extractTA toolsStr goal env maxFail maxSteps ⟨0, [], 0, 0⟩

theorem runFuel_bounds (extractTA : String → String × String)
    (toolsStr goal : String) (env : Nat → IterEnv) (maxFail : Nat) :
    ∀ (fuel : Nat) (st : LoopState) (out : RunOutcome) (st' : LoopState),
      runFuel extractTA toolsStr goal env maxFail fuel st = .ok (out, st') →
      st'.step ≤ st.step + fuel ∧ st'.planCalls ≤ st.planCalls + fuel := by
  intro fuel
  induction fuel with
  | zero =>
      intro st out st' h
      simp only [runFuel, Except.ok.injEq, Prod.mk.injEq] at h
      obtain ⟨-, rfl⟩ := h
      omega
  | succ fuel ih =>
      intro st out st' h
      simp only [runFuel] at h
      split at h
      · split at h
        · simp only [Except.ok.injEq, Prod.mk.injEq] at h
          obtain ⟨-, rfl⟩ := h
          simp <;> omega
        · have := ih _ _ _ h
          simp at this
          omega
      · simp only [Except.ok.injEq, Prod.mk.injEq] at h
        obtain ⟨-, rfl⟩ := h
        simp <;> omega
      · simp only [Except.ok.injEq, Prod.mk.injEq] at h
        obtain ⟨-, rfl⟩ := h
        simp <;> omega
      · have := ih _ _ _ h
        simp at this
        omega

/-- Claim C3: the loop runs at most `max_steps` iterations (the final
step counter never exceeds `max_steps`), issues at most `max_steps`
planning calls, and in particular never issues `max_steps + 1` of them. -/
theorem run_react_loop_step_budget (extractTA : String → String × String)
    (toolsStr goal : String) (env : Nat → IterEnv) (maxSteps maxFail : Nat) :
    ∃ out st, runReactLoop extractTA toolsStr goal env maxSteps maxFail =
        .ok (out, st)
      ∧ st.step ≤ maxSteps ∧ st.planCalls ≤ maxSteps
      ∧ st.planCalls ≠ maxSteps + 1 := by
  obtain ⟨⟨out, st⟩, h⟩ :=
    runFuel_isOk extractTA toolsStr goal env maxFail maxSteps ⟨0, [], 0, 0⟩
  obtain ⟨h1, h2⟩ := runFuel_bounds extractTA toolsStr goal env maxFail maxSteps _ _ _ h
  simp only at h1 h2
  exact ⟨out, st, h, by omega, by omega, by omega⟩

/-- Claim C2 (code bug): the code never resets `consecutive_failures` on
a successful cycle, although its name, its log messages and the spec all
describe a consecutive counter.  With engine failures at steps 1-4 and 6
and a successful full cycle at step 5 (witnessed by the single memory
entry), the run still aborts at step 6 with the failure report. -/
theorem failure_counter_not_reset_on_success :
    (runReactLoop extractTA0 "tools" "goal" envC2 50 5).map
        (fun r => (r.1, r.2.memory.length, r.2.failures)) =
      .ok (.maxFailures 6, 1, 5) := by rfl

/-- Claim C7 counterexample: with a planning failure at step 2 between
two successful cycles, the memory step fields are `[1, 3]` — strictly
increasing, but not increasing by exactly 1 as claimed. -/
theorem memory_steps_can_skip :
    (runReactLoop extractTA0 "tools" "goal" envC7 50 5).map
        (fun r => (r.1, r.2.memory.map MemoryEntry.step)) =
      .ok (.goalAchieved 3, [1, 3])
    ∧ ¬ List.Chain' (fun a b : Nat => b = a + 1) [1, 3] :=
  ⟨rfl, fun hch => by have := (List.chain'_cons.mp hch).1; omega⟩

theorem iterBody_memory_irrelevant (extractTA : String → String × String)
    (toolsStr goal : String) (ie : IterEnv) (stepN : Nat)
    (m₁ m₂ : List MemoryEntry) :
    iterBody extractTA toolsStr goal ie stepN m₁ =
      iterBody extractTA toolsStr goal ie stepN m₂ := rfl

theorem completedSteps_bounds (extractTA : String → String × String)
    (toolsStr goal : String) (env : Nat → IterEnv) :
    ∀ n, (∀ x ∈ completedSteps extractTA toolsStr goal env n, 1 ≤ x ∧ x ≤ n)
      ∧ List.Pairwise (· < ·) (completedSteps extractTA toolsStr goal env n) := by
  intro n
  induction n with
  | zero => exact ⟨by simp [completedSteps], by simp [completedSteps]⟩
  | succ n ih =>
      constructor
      · intro x hx
        rw [completedSteps] at hx
        rcases List.mem_append.mp hx with h | h
        · have := ih.1 x h
          omega
        · split at h
          · simp at h
            omega
          · simp at h
      · rw [completedSteps]
        apply List.pairwise_append.mpr
        refine ⟨ih.2, ?_, ?_⟩
        · split <;> simp
        · intro a ha b hb
          have ha' := ih.1 a ha
          split at hb
          · simp at hb
            omega
          · simp at hb

theorem iterBody_entry_step (extractTA : String → String × String)
    (toolsStr goal : String) (ie : IterEnv) (stepN : Nat)
    (memory : List MemoryEntry) :
    (∀ e, iterBody extractTA toolsStr goal ie stepN memory =
        .ok (.cycleDone e) → e.step = stepN)
    ∧ (∀ e, iterBody extractTA toolsStr goal ie stepN memory =
        .ok (.goalDone e) → e.step = stepN) := by
  refine ⟨?_, ?_⟩ <;>
  · intro e h
    simp only [iterBody] at h
    split at h
    · simp at h
    · split at h
      · simp at h
      · split at h
        · simp at h
        · split at h <;>
            simp only [Except.ok.injEq, IterExit.goalDone.injEq,
              IterExit.cycleDone.injEq, reduceCtorEq] at h <;>
            simp [← h]

theorem runFuel_memory_spec (extractTA : String → String × String)
    (toolsStr goal : String) (env : Nat → IterEnv) (maxFail : Nat) :
    ∀ (fuel : Nat) (st : LoopState) (out : RunOutcome) (st' : LoopState),
      st.memory.map MemoryEntry.step =
        completedSteps extractTA toolsStr goal env st.step →
      runFuel extractTA toolsStr goal env maxFail fuel st = .ok (out, st') →
      st'.memory.map MemoryEntry.step =
        completedSteps extractTA toolsStr goal env st'.step := by
  intro fuel
  induction fuel with
  | zero =>
      intro st out st' hinv h
      simp only [runFuel, Except.ok.injEq, Prod.mk.injEq] at h
      obtain ⟨-, rfl⟩ := h
      exact hinv
  | succ fuel ih =>
      intro st out st' hinv h
      simp only [runFuel] at h
      have hcc : cycleCompleted extractTA toolsStr goal env (st.step + 1) =
          match iterBody extractTA toolsStr goal (env (st.step + 1)) (st.step + 1)
            st.memory with
          | .ok (.goalDone _) => true
          | .ok (.cycleDone _) => true
          | _ => false := by
        rw [cycleCompleted,
          iterBody_memory_irrelevant extractTA toolsStr goal (env (st.step + 1))
            (st.step + 1) [] st.memory]
      split at h
      all_goals rename_i hit
      · -- planning/reflection failure: no cycle completed this step
        have hcc' : cycleCompleted extractTA toolsStr goal env (st.step + 1) = false := by
          rw [hcc, hit]
        split at h
        · simp only [Except.ok.injEq, Prod.mk.injEq] at h
          obtain ⟨-, rfl⟩ := h
          simpa [completedSteps, hcc', hinv] using hinv
        · exact ih _ _ _ (by simpa [completedSteps, hcc', hinv] using hinv) h
      · -- TASK_COMPLETE short-circuit: no cycle completed this step
        have hcc' : cycleCompleted extractTA toolsStr goal env (st.step + 1) = false := by
          rw [hcc, hit]
        simp only [Except.ok.injEq, Prod.mk.injEq] at h
        obtain ⟨-, rfl⟩ := h
        simpa [completedSteps, hcc', hinv] using hinv
      · -- oracle success after a completed cycle: entry appended, run ends
        have hcc' : cycleCompleted extractTA toolsStr goal env (st.step + 1) = true := by
          rw [hcc, hit]
        rename_i entry
        have hstep := (iterBody_entry_step extractTA toolsStr goal
          (env (st.step + 1)) (st.step + 1) st.memory).2 entry hit
        simp only [Except.ok.injEq, Prod.mk.injEq] at h
        obtain ⟨-, rfl⟩ := h
        simp [completedSteps, hcc', hinv, hstep]
      · -- completed cycle, loop continues: entry appended
        have hcc' : cycleCompleted extractTA toolsStr goal env (st.step + 1) = true := by
          rw [hcc, hit]
        rename_i entry
        have hstep := (iterBody_entry_step extractTA toolsStr goal
          (env (st.step + 1)) (st.step + 1) st.memory).1 entry hit
        exact ih _ _ _ (by simp [completedSteps, hcc', hinv, hstep]) h

/-- Claim C7 (amended): at every run's end the memory step fields are
exactly the steps whose iteration completed a full
Dispatching→Reflecting cycle — so `len(memory)` equals the number of
completed cycles — and they are strictly increasing; they advance by
exactly 1 only between cycles not separated by a reasoning-engine
failure (see the counterexample for the original "by exactly 1"). -/
theorem memory_tracks_completed_cycles (extractTA : String → String × String)
    (toolsStr goal : String) (env : Nat → IterEnv) (maxSteps maxFail : Nat) :
    ∃ out st, runReactLoop extractTA toolsStr goal env maxSteps maxFail =
        .ok (out, st)
      ∧ st.memory.map MemoryEntry.step =
          completedSteps extractTA toolsStr goal env st.step
      ∧ st.memory.length =
          (completedSteps extractTA toolsStr goal env st.step).length
      ∧ List.Pairwise (· < ·) (st.memory.map MemoryEntry.step) := by
  obtain ⟨⟨out, st⟩, h⟩ :=
    runFuel_isOk extractTA toolsStr goal env maxFail maxSteps ⟨0, [], 0, 0⟩
  have hmap := runFuel_memory_spec extractTA toolsStr goal env maxFail maxSteps
    _ _ _ (by simp [completedSteps]) h
  refine ⟨out, st, h, hmap, ?_, ?_⟩
  · rw [← hmap, List.length_map]
  · rw [hmap]
    exact (completedSteps_bounds extractTA toolsStr goal env st.step).2

end UnityGeminiMCP
